import Mathlib

/-!
Shallow embedding of the `tf` file-scaffolding tool (src/main.rs) and
verification of its specification claims.

Modelling conventions:
* Rust strings are Lean `String` (a wrapper around `List Char`); name
  splitting is done by `splitDotL` on `List Char`, which mirrors the
  semantics of Rust `str::split` with the single-character pattern "." :
  it always yields at least one segment, the empty string splits to one
  empty segment, and a trailing dot yields a trailing empty segment.
* `str::replace(".", "_")` with a one-character pattern is the character
  map `repDot`; `to_uppercase` is modelled as `Char.toUpper` on each
  character (ASCII case mapping, which is what every guard example uses).
* Filesystem effects (`fs::write`, `fs::metadata`, `fs::set_permissions`)
  are modelled by an oracle `FsOracle` deciding which calls succeed, and
  an explicit `FsState` recording the files written and the modes set.
* `process::exit(1)` after an `eprintln!` is the `MainResult.exitFailure`
  constructor carrying the message (ANSI colour escapes from the
  `colored` crate are omitted; the tag text itself is kept) and the
  filesystem state at that point.  The two `panic!`-style exits
  (the unreachable `None` arm and `first().unwrap()`) are `MainResult.panicked`.
* The author string in main.rs comes from the compile-time macro
  `env!("LOGNAME", ...)`: it is a constant baked into the binary at build
  time.  It is therefore a parameter `author` of the pipeline, and the
  runtime environment is passed as an explicit (and, faithfully, unused)
  parameter `env`, since the running program performs no environment read.
* `Utc::now().format("%m/%d/%Y")` is the parameter `date`.
-/

/-- The `FileTypes` enum of main.rs (lines 19-29). -/
inductive FileTypes where
  | C
  | H
  | Python
  | CPP
  | HPP
  | Bash
  | SystemVerilogModule
  | SystemVerilogPackage
deriving DecidableEq, Repr

/-- The `Info` struct of main.rs (lines 31-36), in source field order. -/
structure Info where
  date : String
  author : String
  file : String
deriving DecidableEq, Repr

/-- Helper for `splitDotL`: prepend a character to the first segment. -/
def consHead (c : Char) : List (List Char) → List (List Char)
  | [] => [[c]]
  | s :: ss => (c :: s) :: ss

/-- Rust `str::split` with pattern "." at the character-list level:
the list of segments between dots, in order.  `[]` splits to one empty
segment, matching Rust where `"".split(".")` yields `[""]`. -/
def splitDotL : List Char → List (List Char)
  | [] => [[]]
  | c :: rest => if c = '.' then [] :: splitDotL rest else consHead c (splitDotL rest)

/-- `input_filename.split(".").collect()` of main.rs line 170. -/
def splitDot (s : String) : List String :=
  (splitDotL s.data).map String.mk

/-- Error message of main.rs line 99. -/
def missingFilenameMsg : String := "Input filename is expected."

/-- Error message of main.rs line 102. -/
def missingExtensionMsg : String := "Filename with file extension is expected."

/-- `check_input_errs` of main.rs (lines 97-106): rejects the split input
when it is exactly the one-element vector of the empty string, then when
it has at most one segment. -/
def check_input_errs (input : List String) : Except String Unit :=
  if input = [""] then Except.error missingFilenameMsg
  else if input.length ≤ 1 then Except.error missingExtensionMsg
  else Except.ok ()

/-- The validation step of the pipeline (main.rs lines 170-175): split the
name on dots and run `check_input_errs`.  This composition is what the
specification calls `validateInput`. -/
def validateInput (name : String) : Except String Unit :=
  check_input_errs (splitDot name)

/-- The extension dispatch of main.rs lines 177-189: a case-sensitive
exact match of the last segment against the closed extension set, `none`
for the `unsupported_filetype` arm. -/
def resolveKind (s : String) : Option FileTypes :=
  if s = "c" then some FileTypes.C
  else if s = "h" then some FileTypes.H
  else if s = "py" then some FileTypes.Python
  else if s = "cpp" then some FileTypes.CPP
  else if s = "hpp" then some FileTypes.HPP
  else if s = "bash" then some FileTypes.Bash
  else if s = "sv" then some FileTypes.SystemVerilogModule
  else if s = "svh" then some FileTypes.SystemVerilogPackage
  else none

/-- The extension table: the pairing of recognised extension strings with
their `FileTypes`, in source order. -/
def extPairs : List (String × FileTypes) :=
  [("c", FileTypes.C), ("h", FileTypes.H), ("py", FileTypes.Python),
   ("cpp", FileTypes.CPP), ("hpp", FileTypes.HPP), ("bash", FileTypes.Bash),
   ("sv", FileTypes.SystemVerilogModule), ("svh", FileTypes.SystemVerilogPackage)]

/-- The extension appended to the base name per kind, from the
`format!` calls in `create_file` (main.rs lines 48-92). -/
def kindExt : FileTypes → String
  | FileTypes.C => "c"
  | FileTypes.H => "h"
  | FileTypes.Python => "py"
  | FileTypes.CPP => "cpp"
  | FileTypes.HPP => "hpp"
  | FileTypes.Bash => "bash"
  | FileTypes.SystemVerilogModule => "sv"
  | FileTypes.SystemVerilogPackage => "svh"

/-- The 72-slash banner line used by the C-style templates. -/
def slashLine : String :=
  "////////////////////////////////////////////////////////////////////////"

/-- The 72-hash banner line used by the bash template. -/
def hashLine : String :=
  "########################################################################"

/-- The `//` banner shared verbatim by the c, h, cpp, hpp, sv and svh
templates of main.rs (e.g. lines 205-210). -/
def slashBanner (info : Info) : String :=
  slashLine ++ "\n// Author  : " ++ info.author ++ "\n// File    : " ++ info.file ++
    "\n// Date    : " ++ info.date ++ "\n// Purpose : TODO\n" ++ slashLine ++ "\n"

/-- `create_c_file` of main.rs (lines 203-222). -/
def create_c_file (info : Info) : String :=
  slashBanner info ++
    "\n#include <stdio.h>\n\nint main(int argc, char *argv[]) \x7b\n  printf(\"Hello, World!\\n\");\n  return 0;\n\x7d\n\n"

/-- `repDot`: the character action of `str::replace(".", "_")` with its
one-character pattern (main.rs line 225). -/
def repDot (c : Char) : Char := if c = '.' then '_' else c

/-- The header-guard token of `create_h_file` (main.rs line 225) at the
character-list level: replace every dot by an underscore, then uppercase. -/
def hGuardL (xs : List Char) : List Char :=
  (xs.map repDot).map Char.toUpper

/-- `info.file.replace(".", "_").to_uppercase()` of main.rs line 225. -/
def hGuard (file : String) : String := String.mk (hGuardL file.data)

/-- `create_h_file` of main.rs (lines 224-246). -/
def create_h_file (info : Info) : String :=
  slashBanner info ++
    "\n#ifndef " ++ hGuard info.file ++ "\n#define " ++ hGuard info.file ++
    "\n\n// STRUCTS\n\n// FUNCTIONS\n\n" ++ slashLine ++ "\n#endif\n"

/-- `create_py_file` of main.rs (lines 248-266). -/
def create_py_file (info : Info) : String :=
  "\"\"\"\nAuthor  : " ++ info.author ++ "\nFile    : " ++ info.file ++
    "\nDate    : " ++ info.date ++ "\nPurpose : TODO\n\"\"\"\n\n\ndef main() -> int:\n    return 0\n\n\nif __name__ == \"__main__\":\n    main()"

/-- `create_cpp_file` of main.rs (lines 268-287). -/
def create_cpp_file (info : Info) : String :=
  slashBanner info ++
    "\n#include <iostream>\n\nint main(int argc, char *argv[]) \x7b\n  std::cout << \"Hello, World!\" << std::endl;\n  return 0;\n\x7d\n\n"

/-- `create_hpp_file` of main.rs (lines 289-308). -/
def create_hpp_file (info : Info) : String :=
  slashBanner info ++
    "\n#pragma once\n\n// STRUCTS\n\n// FUNCTIONS\n\n" ++ slashLine ++ "\n"

/-- `create_bash_file` of main.rs (lines 310-327). -/
def create_bash_file (info : Info) : String :=
  "#!/bin/bash\n" ++ hashLine ++ "\n# Author  : " ++ info.author ++
    "\n# File    : " ++ info.file ++ "\n# Date    : " ++ info.date ++
    "\n# Purpose : TODO\n" ++ hashLine ++
    "\nset -e # exit immediately on error\nset -u # treat unbound variables as errors\nset -x # enable tracing\n\necho \"Hello, World!\"\n"

/-- `module_name[0]` of `create_sv_file` and `package_name[0]` of
`create_svh_file`: the first segment of the filename split on dots.  The
index cannot panic because the split is never empty (`splitDotL_ne_nil`). -/
def firstSegment (file : String) : String := (splitDot file).headD ""

/-- `create_sv_file` of main.rs (lines 329-356). -/
def create_sv_file (info : Info) : String :=
  slashBanner info ++
    "\n`default_nettype none\n\nmodule " ++ firstSegment info.file ++
    " (\n  input logic clk,\n  input logic rst\n  );\n\n  // TODO - Implementation\n\nendmodule\n\n`default_nettype wire\n\n"

/-- The svh guard token: `package_name[0].to_uppercase()` of main.rs
lines 358-361. -/
def svhGuard (file : String) : String :=
  String.mk ((firstSegment file).data.map Char.toUpper)

/-- `create_svh_file` of main.rs (lines 358-391). -/
def create_svh_file (info : Info) : String :=
  slashBanner info ++
    "\n`ifndef " ++ svhGuard info.file ++ "\n`define " ++ svhGuard info.file ++
    "\n\npackage " ++ firstSegment info.file ++
    ";\n\n  // TODO - Implementation\n\nendpackage: " ++ firstSegment info.file ++
    "\n\n`endif\n\n"

/-- The renderer dispatch: which `create_*_file` function the arm of
`create_file` for each kind calls (main.rs lines 48-92). -/
def render : FileTypes → Info → String
  | FileTypes.C, info => create_c_file info
  | FileTypes.H, info => create_h_file info
  | FileTypes.Python, info => create_py_file info
  | FileTypes.CPP, info => create_cpp_file info
  | FileTypes.HPP, info => create_hpp_file info
  | FileTypes.Bash, info => create_bash_file info
  | FileTypes.SystemVerilogModule, info => create_sv_file info
  | FileTypes.SystemVerilogPackage, info => create_svh_file info

/-- Which filesystem calls succeed in a given run: `fs::write`,
`fs::metadata` and `fs::set_permissions` respectively. -/
structure FsOracle where
  writeOk : String → String → Bool
  metadataOk : String → Bool
  setPermOk : String → Bool

/-- The observable filesystem effects of a run: the files written
(path, contents) and the permission modes set (path, mode). -/
structure FsState where
  files : List (String × String)
  modes : List (String × Nat)
deriving DecidableEq, Repr

/-- The empty filesystem state: nothing written, no mode set. -/
def emptyFs : FsState := ⟨[], []⟩

/-- `create_file` of main.rs (lines 38-95).  Every arm formats the path
as `{filename}.{ext}`, stores it in `info.file`, and writes the rendered
template; the Bash arm additionally reads the metadata and sets mode
0o744 (lines 74-81), and a failure in any step propagates with `?`. -/
def create_file (o : FsOracle) (author date filename : String) (ft : FileTypes) :
    FsState × Except String Unit :=
  let path := filename ++ "." ++ kindExt ft
  let info : Info := ⟨date, author, path⟩
  let content := render ft info
  if o.writeOk path content then
    if ft = FileTypes.Bash then
      if o.metadataOk path then
        if o.setPermOk path then
          (⟨[(path, content)], [(path, 0o744)]⟩, Except.ok ())
        else (⟨[(path, content)], []⟩, Except.error "failed to set permissions")
      else (⟨[(path, content)], []⟩, Except.error "failed to read metadata")
    else (⟨[(path, content)], []⟩, Except.ok ())
  else (emptyFs, Except.error "failed to write file")

/-- The ERROR tag printed by every failure path (colour codes omitted). -/
def errorTag : String := "ERROR"

/-- The unsupported-filetype message of main.rs line 187. -/
def unsupportedMsg (ext : String) : String :=
  errorTag ++ ": Filetype \x27." ++ ext ++
    "\x27 is not supported. Run \x27tf --list-filetypes\x27 for available filetypes."

/-- The panic message of the unreachable `None` arm (main.rs line 191). -/
def noneArmPanicMsg : String := "Why are you the way that you are? :("

/-- The panic message `first().unwrap()` would raise on an empty split
(main.rs line 195). -/
def unwrapPanicMsg : String := "called unwrap on a None value"

/-- The outcome of one invocation: normal exit 0 with the final
filesystem state, exit 1 with the error line and the filesystem state at
failure, or a panic. -/
inductive MainResult where
  | exitSuccess (fs : FsState)
  | exitFailure (msg : String) (fs : FsState)
  | panicked (msg : String)
deriving DecidableEq, Repr

/-- `main` of main.rs (lines 155-201), from the point where the name
argument is in hand: split, validate, resolve the kind from the last
segment, then `create_file` on the first segment.  `env` is the runtime
environment of the process; the compiled program never reads it, because
the author string was baked in at build time by the compile-time macro
`env!("LOGNAME", ...)` (line 45) and is the parameter `author` here. -/
def tfMain (o : FsOracle) (env : List (String × String)) (author date name : String) :
    MainResult :=
  match check_input_errs (splitDot name) with
  | Except.error msg => MainResult.exitFailure (errorTag ++ " with input: " ++ msg) emptyFs
  | Except.ok _ =>
    match (splitDot name).getLast? with
    | none => MainResult.panicked noneArmPanicMsg
    | some ext =>
      match resolveKind ext with
      | none => MainResult.exitFailure (unsupportedMsg ext) emptyFs
      | some ft =>
        match (splitDot name).head? with
        | none => MainResult.panicked unwrapPanicMsg
        | some base =>
          match create_file o author date base ft with
          | (fs, Except.ok _) => MainResult.exitSuccess fs
          | (fs, Except.error e) =>
            MainResult.exitFailure (errorTag ++ " creating file: " ++ e) fs

/-- The paths of the files a run wrote, in order. -/
def writtenPaths : MainResult → List String
  | MainResult.exitSuccess fs => fs.files.map Prod.fst
  | MainResult.exitFailure _ fs => fs.files.map Prod.fst
  | MainResult.panicked _ => []

/-- Whether a run panicked. -/
def isPanicked : MainResult → Bool
  | MainResult.panicked _ => true
  | _ => false

/-- The oracle for a run where every filesystem call succeeds. -/
def allOk : FsOracle := ⟨fun _ _ => true, fun _ => true, fun _ => true⟩

/-- The oracle for a run where writes succeed but setting permissions
fails. -/
def failPermOracle : FsOracle := ⟨fun _ _ => true, fun _ => true, fun _ => false⟩

/-- Modelled from the claim wording of C3 (for comparison with the code):
the input filename without its extension, i.e. everything before the
final dot. -/
def specBaseNoExt (name : String) : String :=
  String.mk (((name.data.reverse.dropWhile (fun c => c != '.')).drop 1).reverse)

/-- Modelled from the claim wording of C3 (for comparison with the code):
the output path the claim predicts, base-without-extension joined with
the resolved kind extension. -/
def specOutputPath (name : String) (ft : FileTypes) : String :=
  specBaseNoExt name ++ "." ++ kindExt ft

/-! ### Lemmas about the dot-splitting function -/

theorem splitDotL_ne_nil (xs : List Char) : splitDotL xs ≠ [] := by
  induction xs with
  | nil => simp [splitDotL]
  | cons c rest ih =>
    cases h : splitDotL rest with
    | nil => exact absurd h ih
    | cons s ss =>
      by_cases hc : c = '.'
      · simp [splitDotL, hc, h]
      · simp [splitDotL, hc, h, consHead]

theorem splitDotL_length (xs : List Char) :
    (splitDotL xs).length = xs.count '.' + 1 := by
  induction xs with
  | nil => simp [splitDotL]
  | cons c rest ih =>
    by_cases hc : c = '.'
    · simp [splitDotL, hc, ih, List.count_cons]
    · cases h : splitDotL rest with
      | nil => exact absurd h (splitDotL_ne_nil rest)
      | cons s ss =>
        rw [h] at ih
        have hcb : ¬ (c == '.') = true := by simp [hc]
        simp [splitDotL, hc, h, consHead, List.count_cons, hcb]
        simpa using ih

theorem splitDotL_eq_single_empty_iff (xs : List Char) :
    splitDotL xs = [[]] ↔ xs = [] := by
  constructor
  · intro h
    cases xs with
    | nil => rfl
    | cons c rest =>
      exfalso
      by_cases hc : c = '.'
      · have h2 : [] :: splitDotL rest = [[]] := by
          simpa [splitDotL, hc] using h
        have : splitDotL rest = [] := by simpa using h2
        exact splitDotL_ne_nil rest this
      · cases hs : splitDotL rest with
        | nil => exact splitDotL_ne_nil rest hs
        | cons s ss => simp [splitDotL, hc, hs, consHead] at h
  · intro h
    subst h
    rfl

theorem splitDotL_concat_dot (xs : List Char) :
    splitDotL (xs ++ ['.']) = splitDotL xs ++ [[]] := by
  induction xs with
  | nil => rfl
  | cons c rest ih =>
    by_cases hc : c = '.'
    · simp [splitDotL, hc, ih]
    · cases h : splitDotL rest with
      | nil => exact absurd h (splitDotL_ne_nil rest)
      | cons s ss =>
        rw [h] at ih
        simp [splitDotL, hc, h, consHead, ih]

theorem splitDotL_append_dot_cons (xs ys : List Char) (h : ('.' : Char) ∉ xs) :
    splitDotL (xs ++ '.' :: ys) = xs :: splitDotL ys := by
  induction xs with
  | nil => simp [splitDotL]
  | cons c rest ih =>
    have hc : c ≠ '.' := by
      intro hcontra
      exact h (by simp [hcontra])
    have hrest : ('.' : Char) ∉ rest := fun hm => h (List.mem_cons_of_mem _ hm)
    show splitDotL (c :: (rest ++ '.' :: ys)) = (c :: rest) :: splitDotL ys
    simp only [splitDotL, if_neg hc]
    rw [ih hrest]
    rfl

theorem map_repDot_eq_self (xs : List Char) (h : ('.' : Char) ∉ xs) :
    xs.map repDot = xs := by
  induction xs with
  | nil => rfl
  | cons c rest ih =>
    have hc : c ≠ '.' := by
      intro hcontra
      exact h (by simp [hcontra])
    have hrest : ('.' : Char) ∉ rest := fun hm => h (List.mem_cons_of_mem _ hm)
    simp [repDot, hc, ih hrest]

theorem string_mk_eq_empty_iff (xs : List Char) : String.mk xs = "" ↔ xs = [] := by
  constructor
  · intro h
    exact congrArg String.data h
  · intro h
    subst h
    rfl

theorem map_mk_eq_single_empty_iff (l : List (List Char)) :
    l.map String.mk = [""] ↔ l = [[]] := by
  cases l with
  | nil => simp
  | cons s ss =>
    cases ss with
    | nil => simp [string_mk_eq_empty_iff]
    | cons t ts => simp

/-- Evaluation of the validation step as a function of the character
list of the name. -/
theorem validateInput_eval (xs : List Char) :
    validateInput (String.mk xs) =
      if xs = [] then Except.error missingFilenameMsg
      else if ('.' : Char) ∈ xs then Except.ok ()
      else Except.error missingExtensionMsg := by
  by_cases hnil : xs = []
  · subst hnil
    rfl
  · have hne : (splitDotL xs).map String.mk ≠ [""] := by
      intro h
      exact hnil ((splitDotL_eq_single_empty_iff xs).mp ((map_mk_eq_single_empty_iff _).mp h))
    by_cases hdot : ('.' : Char) ∈ xs
    · have hcount : 0 < xs.count '.' := List.count_pos_iff.mpr hdot
      have hlen : ¬ ((splitDotL xs).map String.mk).length ≤ 1 := by
        rw [List.length_map, splitDotL_length]
        omega
      simp only [validateInput, splitDot, check_input_errs, if_neg hne, if_neg hlen,
        if_neg hnil, if_pos hdot]
    · have hcount : xs.count '.' = 0 := List.count_eq_zero.mpr hdot
      have hlen : ((splitDotL xs).map String.mk).length ≤ 1 := by
        rw [List.length_map, splitDotL_length]
        omega
      simp only [validateInput, splitDot, check_input_errs, if_neg hne, if_pos hlen,
        if_neg hnil, if_neg hdot]

theorem splitDotL_no_dot (xs : List Char) (h : ('.' : Char) ∉ xs) : splitDotL xs = [xs] := by
  induction xs with
  | nil => rfl
  | cons c rest ih =>
    have hc : c ≠ '.' := by
      intro hcontra
      exact h (by simp [hcontra])
    have hrest : ('.' : Char) ∉ rest := fun hm => h (List.mem_cons_of_mem _ hm)
    simp [splitDotL, hc, ih hrest, consHead]

theorem splitDotL_getLast_after_final_dot (ps E : List Char) (h : ('.' : Char) ∉ E) :
    (splitDotL (ps ++ '.' :: E)).getLast? = some E := by
  induction ps with
  | nil =>
    show (splitDotL ('.' :: E)).getLast? = some E
    simp [splitDotL, splitDotL_no_dot E h]
  | cons c ps ih =>
    by_cases hc : c = '.'
    · show (splitDotL (c :: (ps ++ '.' :: E))).getLast? = some E
      subst hc
      simp only [splitDotL, if_pos rfl, if_true]
      cases hq : splitDotL (ps ++ '.' :: E) with
      | nil => exact absurd hq (splitDotL_ne_nil _)
      | cons s ss =>
        rw [hq] at ih
        rw [List.getLast?_cons_cons]
        exact ih
    · show (splitDotL (c :: (ps ++ '.' :: E))).getLast? = some E
      simp only [splitDotL, if_neg hc]
      cases hq : splitDotL (ps ++ '.' :: E) with
      | nil => exact absurd hq (splitDotL_ne_nil _)
      | cons s ss =>
        cases ss with
        | nil =>
          exfalso
          have hlen := splitDotL_length (ps ++ '.' :: E)
          rw [hq] at hlen
          have hpos : 0 < (ps ++ '.' :: E).count '.' := List.count_pos_iff.mpr (by simp)
          simp only [List.length_singleton] at hlen
          omega
        | cons t ts =>
          show ((c :: s) :: t :: ts).getLast? = some E
          rw [hq] at ih
          rw [List.getLast?_cons_cons] at ih ⊢
          exact ih

/-- The last segment of the split of a name is exactly the substring
after the final dot of the name. -/
theorem splitDot_getLast_after_final_dot (ps E : List Char) (h : ('.' : Char) ∉ E) :
    (splitDot (String.mk (ps ++ '.' :: E))).getLast? = some (String.mk E) := by
  show ((splitDotL (ps ++ '.' :: E)).map String.mk).getLast? = some (String.mk E)
  rw [List.getLast?_map, splitDotL_getLast_after_final_dot ps E h]
  rfl

/-! ### Evaluation lemmas for the pipeline -/

theorem tfMain_input_err (o : FsOracle) (env : List (String × String))
    (author date name msg : String)
    (hchk : check_input_errs (splitDot name) = Except.error msg) :
    tfMain o env author date name =
      MainResult.exitFailure (errorTag ++ " with input: " ++ msg) emptyFs := by
  simp only [tfMain, hchk]

theorem tfMain_unsupported (o : FsOracle) (env : List (String × String))
    (author date name ext : String)
    (hchk : check_input_errs (splitDot name) = Except.ok ())
    (hlast : (splitDot name).getLast? = some ext)
    (hres : resolveKind ext = none) :
    tfMain o env author date name = MainResult.exitFailure (unsupportedMsg ext) emptyFs := by
  simp only [tfMain, hchk, hlast, hres]

theorem tfMain_create_ok (o : FsOracle) (env : List (String × String))
    (author date name ext base : String) (ft : FileTypes) (fs : FsState)
    (hchk : check_input_errs (splitDot name) = Except.ok ())
    (hlast : (splitDot name).getLast? = some ext)
    (hres : resolveKind ext = some ft)
    (hhead : (splitDot name).head? = some base)
    (hcf : create_file o author date base ft = (fs, Except.ok ())) :
    tfMain o env author date name = MainResult.exitSuccess fs := by
  simp only [tfMain, hchk, hlast, hres, hhead, hcf]

theorem tfMain_create_err (o : FsOracle) (env : List (String × String))
    (author date name ext base e : String) (ft : FileTypes) (fs : FsState)
    (hchk : check_input_errs (splitDot name) = Except.ok ())
    (hlast : (splitDot name).getLast? = some ext)
    (hres : resolveKind ext = some ft)
    (hhead : (splitDot name).head? = some base)
    (hcf : create_file o author date base ft = (fs, Except.error e)) :
    tfMain o env author date name =
      MainResult.exitFailure (errorTag ++ " creating file: " ++ e) fs := by
  simp only [tfMain, hchk, hlast, hres, hhead, hcf]

theorem create_file_files_of_writeOk (o : FsOracle) (author date filename : String)
    (ft : FileTypes)
    (hw : o.writeOk (filename ++ "." ++ kindExt ft)
      (render ft ⟨date, author, filename ++ "." ++ kindExt ft⟩) = true) :
    (create_file o author date filename ft).1.files =
      [(filename ++ "." ++ kindExt ft,
        render ft ⟨date, author, filename ++ "." ++ kindExt ft⟩)] := by
  unfold create_file
  simp only [hw, if_true]
  split_ifs <;> rfl

/-! ### The claims -/

/-- Claim C1: the extension examined by the dispatch is the substring
after the final dot of the name (the last split segment), and resolution
is an exact case-sensitive match against the closed table: `resolveKind`
yields a kind exactly for the pairs of `extPairs`, and no kind for any
other string. -/
theorem c1_resolve_kind_exact (s : String) (k : FileTypes) :
    (resolveKind s = some k ↔ (s, k) ∈ extPairs)
      ∧ (∀ ps E : List Char, ('.' : Char) ∉ E →
          (splitDot (String.mk (ps ++ '.' :: E))).getLast? = some (String.mk E)) := by
  refine ⟨⟨?_, ?_⟩, splitDot_getLast_after_final_dot⟩
  · intro h
    simp only [resolveKind] at h
    split_ifs at h with h1 h2 h3 h4 h5 h6 h7 h8 <;>
      simp_all [extPairs]
  · intro h
    fin_cases h <;> rfl

theorem c1_witness : ("c", FileTypes.C) ∈ extPairs :=
  (c1_resolve_kind_exact "c" FileTypes.C).1.mp rfl

/-- Claim C2: validation splits on dots; it yields the missing-filename
error exactly for the empty name, the missing-extension error exactly for
a non-empty name with no dot (equivalently, fewer than two segments), and
succeeds exactly when a dot is present; the three concrete cases of the
claim behave as stated. -/
theorem c2_validate_input (name : String) :
    (validateInput name = Except.error missingFilenameMsg ↔ name = "")
      ∧ (validateInput name = Except.error missingExtensionMsg ↔
          (name ≠ "" ∧ ('.' : Char) ∉ name.data))
      ∧ (validateInput name = Except.ok () ↔ ('.' : Char) ∈ name.data)
      ∧ ((splitDot name).length ≤ 1 ↔ ('.' : Char) ∉ name.data)
      ∧ validateInput "" = Except.error missingFilenameMsg
      ∧ validateInput "foo" = Except.error missingExtensionMsg
      ∧ validateInput "foo.c" = Except.ok () := by
  obtain ⟨xs⟩ := name
  have hmsg : missingExtensionMsg ≠ missingFilenameMsg := by decide
  have hmsg2 : missingFilenameMsg ≠ missingExtensionMsg := by decide
  have hev := validateInput_eval xs
  have hlen4 : ((splitDot (String.mk xs)).length ≤ 1 ↔ ('.' : Char) ∉ xs) := by
    show ((splitDotL xs).map String.mk).length ≤ 1 ↔ _
    rw [List.length_map, splitDotL_length]
    constructor
    · intro hl
      exact List.count_eq_zero.mp (by omega)
    · intro hm
      have := List.count_eq_zero.mpr hm
      omega
  refine ⟨?_, ?_, ?_, hlen4, rfl, rfl, rfl⟩
  · rw [hev]
    by_cases hnil : xs = []
    · simp [hnil, string_mk_eq_empty_iff]
    · by_cases hdot : ('.' : Char) ∈ xs
      · simp [hnil, hdot, string_mk_eq_empty_iff]
      · simp [hnil, hdot, string_mk_eq_empty_iff, hmsg]
  · rw [hev]
    by_cases hnil : xs = []
    · simp [hnil, string_mk_eq_empty_iff, hmsg, hmsg2]
    · by_cases hdot : ('.' : Char) ∈ xs
      · simp [hnil, hdot, string_mk_eq_empty_iff]
      · simp [hnil, hdot, string_mk_eq_empty_iff]
  · rw [hev]
    by_cases hnil : xs = []
    · simp [hnil]
    · by_cases hdot : ('.' : Char) ∈ xs
      · simp [hnil, hdot]
      · simp [hnil, hdot]

/-- Claim C4: for a validated name whose last segment resolves to no
kind, the run exits with failure carrying the unsupported-filetype
message, nothing is written, and the message names the rejected extension
and points at the filetype-listing command. -/
theorem c4_unsupported_extension (o : FsOracle) (env : List (String × String))
    (author date name ext : String)
    (hchk : check_input_errs (splitDot name) = Except.ok ())
    (hlast : (splitDot name).getLast? = some ext)
    (hres : resolveKind ext = none) :
    tfMain o env author date name = MainResult.exitFailure (unsupportedMsg ext) emptyFs
      ∧ unsupportedMsg ext =
          "ERROR: Filetype \x27." ++ ext ++
            "\x27 is not supported. Run \x27tf --list-filetypes\x27 for available filetypes."
      ∧ writtenPaths (tfMain o env author date name) = [] := by
  have hmain := tfMain_unsupported o env author date name ext hchk hlast hres
  exact ⟨hmain, rfl, by rw [hmain]; rfl⟩

theorem c4_witness :
    tfMain allOk [] "user" "01/01/2020" "demo.xyz" =
        MainResult.exitFailure (unsupportedMsg "xyz") emptyFs
      ∧ unsupportedMsg "xyz" =
          "ERROR: Filetype \x27." ++ "xyz" ++
            "\x27 is not supported. Run \x27tf --list-filetypes\x27 for available filetypes."
      ∧ writtenPaths (tfMain allOk [] "user" "01/01/2020" "demo.xyz") = [] :=
  c4_unsupported_extension allOk [] "user" "01/01/2020" "demo.xyz" "xyz" rfl rfl rfl

/-- Claim C9: splitting always yields at least one segment, and no input
can make the run panic: neither the `None` arm of the extension match nor
the `first().unwrap()` call is reachable. -/
theorem c9_no_panic (o : FsOracle) (env : List (String × String))
    (author date name : String) :
    1 ≤ (splitDot name).length ∧ isPanicked (tfMain o env author date name) = false := by
  have hlen : 1 ≤ (splitDot name).length := by
    show 1 ≤ ((splitDotL name.data).map String.mk).length
    rw [List.length_map, splitDotL_length]
    omega
  refine ⟨hlen, ?_⟩
  have hne : splitDot name ≠ [] := by
    intro h
    rw [h] at hlen
    simp at hlen
  cases hchk : check_input_errs (splitDot name) with
  | error msg =>
    rw [tfMain_input_err o env author date name msg hchk]
    rfl
  | ok u =>
    cases u
    obtain ⟨ext, hlast⟩ : ∃ e, (splitDot name).getLast? = some e := by
      cases hq : (splitDot name).getLast? with
      | none => exact absurd (List.getLast?_eq_none_iff.mp hq) hne
      | some e => exact ⟨e, rfl⟩
    obtain ⟨base, hhead⟩ : ∃ b, (splitDot name).head? = some b := by
      cases hq : (splitDot name).head? with
      | none => exact absurd (List.head?_eq_none_iff.mp hq) hne
      | some b => exact ⟨b, rfl⟩
    cases hres : resolveKind ext with
    | none =>
      rw [tfMain_unsupported o env author date name ext hchk hlast hres]
      rfl
    | some ft =>
      cases hcf : create_file o author date base ft with
      | mk fs r =>
        cases r with
        | ok u2 =>
          cases u2
          rw [tfMain_create_ok o env author date name ext base ft fs hchk hlast hres hhead hcf]
          rfl
        | error e =>
          rw [tfMain_create_err o env author date name ext base e ft fs hchk hlast hres hhead hcf]
          rfl

/-- Claim C10: a name ending in a dot passes validation (it splits into
at least two segments) and is then rejected as an unsupported filetype
with the empty extension string, not as a missing-extension error. -/
theorem c10_trailing_dot (o : FsOracle) (env : List (String × String))
    (author date : String) (xs : List Char) :
    validateInput (String.mk (xs ++ ['.'])) = Except.ok ()
      ∧ 2 ≤ (splitDot (String.mk (xs ++ ['.']))).length
      ∧ tfMain o env author date (String.mk (xs ++ ['.'])) =
          MainResult.exitFailure (unsupportedMsg "") emptyFs := by
  have hmem : ('.' : Char) ∈ xs ++ ['.'] := by simp
  have hnil : xs ++ ['.'] ≠ [] := by simp
  have hval : validateInput (String.mk (xs ++ ['.'])) = Except.ok () := by
    rw [validateInput_eval, if_neg hnil, if_pos hmem]
  have hsplit : splitDot (String.mk (xs ++ ['.'])) =
      (splitDotL xs).map String.mk ++ [""] := by
    show (splitDotL (xs ++ ['.'])).map String.mk = _
    rw [splitDotL_concat_dot, List.map_append]
    rfl
  have hlen : 2 ≤ (splitDot (String.mk (xs ++ ['.']))).length := by
    rw [hsplit, List.length_append, List.length_map, splitDotL_length]
    simp
  have hlast : (splitDot (String.mk (xs ++ ['.']))).getLast? = some "" := by
    rw [hsplit]
    exact List.getLast?_concat _
  exact ⟨hval, hlen, tfMain_unsupported o env author date _ "" hval hlast rfl⟩

/-- Claim C3 counterexample: for the input a.b.c the program writes a.c,
not base-without-extension plus the kind extension (which would be a.b.c
itself): `create_file` receives the first split segment, not the name
without its final extension. -/
theorem c3_counterexample :
    writtenPaths (tfMain allOk [] "user" "01/01/2020" "a.b.c") = ["a.c"]
      ∧ specOutputPath "a.b.c" FileTypes.C = "a.b.c"
      ∧ ("a.c" : String) ≠ "a.b.c" :=
  ⟨rfl, rfl, by decide⟩

/-- Claim C3 as amended: for every valid input, the path written is
`<first>.<ext>` where `<first>` is the substring before the FIRST dot
(the first split segment) and `<ext>` is the extension of the resolved
kind. -/
theorem c3_written_path_first_segment (o : FsOracle) (env : List (String × String))
    (author date : String) (xs ys : List Char) (ext : String) (k : FileTypes)
    (hx : ('.' : Char) ∉ xs)
    (hlast : (splitDot (String.mk (xs ++ '.' :: ys))).getLast? = some ext)
    (hres : resolveKind ext = some k)
    (hw : o.writeOk (String.mk xs ++ "." ++ kindExt k)
        (render k ⟨date, author, String.mk xs ++ "." ++ kindExt k⟩) = true) :
    writtenPaths (tfMain o env author date (String.mk (xs ++ '.' :: ys))) =
      [String.mk xs ++ "." ++ kindExt k] := by
  have hsplit : splitDot (String.mk (xs ++ '.' :: ys)) =
      String.mk xs :: (splitDotL ys).map String.mk := by
    show (splitDotL (xs ++ '.' :: ys)).map String.mk = _
    rw [splitDotL_append_dot_cons xs ys hx]
    rfl
  have hchk : check_input_errs (splitDot (String.mk (xs ++ '.' :: ys))) = Except.ok () := by
    rw [hsplit]
    obtain ⟨s, ss, hss⟩ := List.exists_cons_of_ne_nil (splitDotL_ne_nil ys)
    rw [hss]
    simp [check_input_errs]
  have hhead : (splitDot (String.mk (xs ++ '.' :: ys))).head? = some (String.mk xs) := by
    rw [hsplit]
    rfl
  have hfiles := create_file_files_of_writeOk o author date (String.mk xs) k hw
  cases hcf : create_file o author date (String.mk xs) k with
  | mk fs r =>
    rw [hcf] at hfiles
    have hf2 : fs.files =
        [(String.mk xs ++ "." ++ kindExt k,
          render k ⟨date, author, String.mk xs ++ "." ++ kindExt k⟩)] := hfiles
    cases r with
    | ok u =>
      cases u
      rw [tfMain_create_ok o env author date _ ext (String.mk xs) k fs hchk hlast hres hhead hcf]
      simp [writtenPaths, hf2]
    | error e =>
      rw [tfMain_create_err o env author date _ ext (String.mk xs) e k fs hchk hlast hres hhead hcf]
      simp [writtenPaths, hf2]

theorem c3_witness :
    writtenPaths
        (tfMain allOk [] "user" "01/01/2020" (String.mk (['a'] ++ '.' :: ['b', '.', 'c']))) =
      [String.mk ['a'] ++ "." ++ kindExt FileTypes.C] :=
  c3_written_path_first_segment allOk [] "user" "01/01/2020" ['a'] ['b', '.', 'c'] "c"
    FileTypes.C (by decide) (by decide) rfl rfl

/-- Claim C5: for a dot-free base name, the C-header guard token is the
base and extension joined by an underscore and upper-cased, the svh guard
token is the base alone upper-cased, the file foo.h yields guard FOO_H,
and no sanitisation of non-identifier characters happens (a-b.h yields
A-B_H). -/
theorem c5_guard_tokens (base : List Char) (h : ('.' : Char) ∉ base) :
    hGuardL (base ++ ['.', 'h']) = (base ++ ['_', 'h']).map Char.toUpper
      ∧ svhGuard (String.mk (base ++ ['.', 's', 'v', 'h'])) = String.mk (base.map Char.toUpper)
      ∧ hGuard "foo.h" = "FOO_H"
      ∧ hGuard "a-b.h" = "A-B_H" := by
  refine ⟨?_, ?_, by decide, by decide⟩
  · show ((base ++ ['.', 'h']).map repDot).map Char.toUpper = _
    rw [List.map_append, map_repDot_eq_self base h]
    rfl
  · have hsplit : splitDot (String.mk (base ++ ['.', 's', 'v', 'h'])) =
        String.mk base :: (splitDotL ['s', 'v', 'h']).map String.mk := by
      show (splitDotL (base ++ '.' :: ['s', 'v', 'h'])).map String.mk = _
      rw [splitDotL_append_dot_cons base ['s', 'v', 'h'] h]
      rfl
    show String.mk ((firstSegment (String.mk (base ++ ['.', 's', 'v', 'h']))).data.map Char.toUpper) = _
    unfold firstSegment
    rw [hsplit]
    rfl

theorem c5_witness :
    hGuardL (['f', 'o', 'o'] ++ ['.', 'h']) = (['f', 'o', 'o'] ++ ['_', 'h']).map Char.toUpper
      ∧ svhGuard (String.mk (['f', 'o', 'o'] ++ ['.', 's', 'v', 'h'])) =
          String.mk (['f', 'o', 'o'].map Char.toUpper)
      ∧ hGuard "foo.h" = "FOO_H"
      ∧ hGuard "a-b.h" = "A-B_H" :=
  c5_guard_tokens ['f', 'o', 'o'] (by decide)

/-- Claim C6: when the write succeeds for the Bash kind, mode 0o744 is
set on the written path afterwards; if reading metadata or setting the
permissions fails, the invocation fails but the written file stays in
place; and no kind other than Bash ever sets a mode. -/
theorem c6_bash_permissions (o : FsOracle) (author date base : String)
    (hw : o.writeOk (base ++ "." ++ kindExt FileTypes.Bash)
        (render FileTypes.Bash ⟨date, author, base ++ "." ++ kindExt FileTypes.Bash⟩) = true) :
    (o.metadataOk (base ++ "." ++ kindExt FileTypes.Bash) = true →
      o.setPermOk (base ++ "." ++ kindExt FileTypes.Bash) = true →
        create_file o author date base FileTypes.Bash =
          (⟨[(base ++ "." ++ kindExt FileTypes.Bash,
              render FileTypes.Bash ⟨date, author, base ++ "." ++ kindExt FileTypes.Bash⟩)],
            [(base ++ "." ++ kindExt FileTypes.Bash, 0o744)]⟩, Except.ok ()))
      ∧ (o.metadataOk (base ++ "." ++ kindExt FileTypes.Bash) = false ∨
          o.setPermOk (base ++ "." ++ kindExt FileTypes.Bash) = false →
          ∃ e, create_file o author date base FileTypes.Bash =
            (⟨[(base ++ "." ++ kindExt FileTypes.Bash,
                render FileTypes.Bash ⟨date, author, base ++ "." ++ kindExt FileTypes.Bash⟩)],
              []⟩, Except.error e))
      ∧ (∀ ft : FileTypes, ft ≠ FileTypes.Bash →
          (create_file o author date base ft).1.modes = []) := by
  refine ⟨?_, ?_, ?_⟩
  · intro hm hs
    simp [create_file, hw, hm, hs]
  · intro hfail
    rcases hfail with hm | hs
    · exact ⟨"failed to read metadata", by simp [create_file, hw, hm]⟩
    · by_cases hm2 : o.metadataOk (base ++ "." ++ kindExt FileTypes.Bash) = true
      · exact ⟨"failed to set permissions", by simp [create_file, hw, hm2, hs]⟩
      · rw [Bool.not_eq_true] at hm2
        exact ⟨"failed to read metadata", by simp [create_file, hw, hm2]⟩
  · intro ft hft
    by_cases hwq : o.writeOk (base ++ "." ++ kindExt ft)
        (render ft ⟨date, author, base ++ "." ++ kindExt ft⟩) = true
    · simp [create_file, hwq, hft]
    · rw [Bool.not_eq_true] at hwq
      simp [create_file, hwq, emptyFs]

theorem c6_witness :
    ∃ e, create_file failPermOracle "alice" "01/01/2020" "demo" FileTypes.Bash =
      (⟨[("demo" ++ "." ++ kindExt FileTypes.Bash,
          render FileTypes.Bash ⟨"01/01/2020", "alice", "demo" ++ "." ++ kindExt FileTypes.Bash⟩)],
        []⟩, Except.error e) :=
  (c6_bash_permissions failPermOracle "alice" "01/01/2020" "demo" rfl).2.1 (Or.inr rfl)

/-- Claim C7 counterexample: with a runtime environment that does not
define LOGNAME, the run does not abort and a file is written anyway: the
author string is the constant baked in at build time by the compile-time
macro, and the running program never reads the environment. -/
theorem c7_counterexample :
    (([] : List (String × String)).lookup "LOGNAME" = none)
      ∧ tfMain allOk [] "builduser" "01/01/2020" "foo.c" =
          MainResult.exitSuccess
            ⟨[("foo.c", create_c_file ⟨"01/01/2020", "builduser", "foo.c"⟩)], []⟩
      ∧ writtenPaths (tfMain allOk [] "builduser" "01/01/2020" "foo.c") = ["foo.c"] :=
  ⟨rfl, rfl, rfl⟩

/-- Claim C7 as amended: the behaviour of an invocation is independent of
the runtime environment; the author metadata is the build-time constant
parameter, fixed when the binary was compiled. -/
theorem c7_author_fixed_at_build (o : FsOracle) (env1 env2 : List (String × String))
    (author date name : String) :
    tfMain o env1 author date name = tfMain o env2 author date name := rfl

/-- Claim C8: rendering is a pure function of kind and metadata: two
renderings with field-equal metadata produce identical output text. -/
theorem c8_render_deterministic (ft : FileTypes) (i j : Info)
    (hd : i.date = j.date) (ha : i.author = j.author) (hf : i.file = j.file) :
    render ft i = render ft j := by
  have hij : i = j := by
    cases i
    cases j
    simp_all
  rw [hij]

theorem c8_witness :
    render FileTypes.C ⟨"01/01/2020", "alice", "foo.c"⟩ =
      render FileTypes.C ⟨"01/01/2020", "alice", "foo.c"⟩ :=
  c8_render_deterministic FileTypes.C ⟨"01/01/2020", "alice", "foo.c"⟩
    ⟨"01/01/2020", "alice", "foo.c"⟩ rfl rfl rfl

theorem c2_witness : validateInput "foo.c" = Except.ok () :=
  (c2_validate_input "foo.c").2.2.2.2.2.2

theorem c7_witness :
    tfMain allOk [("LOGNAME", "someone")] "builduser" "01/01/2020" "foo.c" =
      tfMain allOk [] "builduser" "01/01/2020" "foo.c" :=
  c7_author_fixed_at_build allOk [("LOGNAME", "someone")] [] "builduser" "01/01/2020" "foo.c"

theorem c9_witness :
    1 ≤ (splitDot "").length ∧ isPanicked (tfMain allOk [] "user" "01/01/2020" "") = false :=
  c9_no_panic allOk [] "user" "01/01/2020" ""

theorem c10_witness :
    validateInput (String.mk (['f', 'o', 'o'] ++ ['.'])) = Except.ok ()
      ∧ 2 ≤ (splitDot (String.mk (['f', 'o', 'o'] ++ ['.']))).length
      ∧ tfMain allOk [] "user" "01/01/2020" (String.mk (['f', 'o', 'o'] ++ ['.'])) =
          MainResult.exitFailure (unsupportedMsg "") emptyFs :=
  c10_trailing_dot allOk [] "user" "01/01/2020" ['f', 'o', 'o']
